import Mathlib

/-!
Verification of the pylon CLI core (Go) against its specification.

The development shallowly embeds the three core packages:

* `internal/config` (config.go): layered configuration resolution —
  built-in defaults, then an INI-style `~/.pylonrc` file, then
  environment-variable overrides.
* `internal/discord` (client.go): the messaging client — webhook send,
  authenticated reads with limit clamping and chronological reordering,
  channel filtering, and pure message formatting.
* `internal/cal` (client.go): the calendar client — REST operations and
  uniform error normalization into `APIError`.

Modelling conventions:

* Go strings are Lean `String`s; the Go standard-library string helpers
  (`strings.TrimSpace`, `strings.HasPrefix`, `strings.SplitN`, slicing)
  are re-implemented structurally over `String.data` so that every
  definition kernel-evaluates on concrete inputs.  The re-implementations
  cover the ASCII fragment the configuration format and the claims use
  (Go trims the two non-ASCII Unicode space characters as well, and Go
  slicing is by byte rather than by character; the difference is
  invisible on ASCII input).
* The HTTP transport is a parameter `net : HttpRequest → NetResult`, and
  each client operation returns the list of requests it issued together
  with its result, so that fail-fast behaviour ("zero requests") is a
  statement about the returned list.
* `encoding/json` unmarshalling of response bodies is an oracle
  parameter (`String → Option α`): `none` models a Go unmarshal error,
  `some v` a successful parse producing `v`.  The clients' own logic is
  translated exactly; only the stdlib JSON parser is abstracted.
-/

namespace Pylon

/-! ## Go string primitives, structurally -/

/-- Whitespace as recognised by Go's `unicode.IsSpace` on ASCII input. -/
def isSpaceChar (c : Char) : Bool :=
  c == ' ' || c == '\t' || c == '\n' || c == '\r' || c == '\x0b' || c == '\x0c'

/-- Character-list core of Go's `strings.TrimSpace`. -/
def trimChars (l : List Char) : List Char :=
  ((l.dropWhile isSpaceChar).reverse.dropWhile isSpaceChar).reverse

/-- Go `strings.TrimSpace`. -/
def goTrim (s : String) : String :=
  String.mk (trimChars s.data)

/-- Character-list test that `p` starts the list `l`. -/
def listStartsWith (p l : List Char) : Bool :=
  match p, l with
  | [], _ => true
  | _ :: _, [] => false
  | a :: as, b :: bs => a == b && listStartsWith as bs

/-- Go `strings.HasPrefix s p`. -/
def goHasStart (s p : String) : Bool :=
  listStartsWith p.data s.data

/-- Go `strings.HasSuffix s p`. -/
def goHasEnd (s p : String) : Bool :=
  listStartsWith p.data.reverse s.data.reverse

/-- Go slice `s[1 : len s - 1]`, used for section headers `[name]`. -/
def sliceInner (s : String) : String :=
  String.mk ((s.data.drop 1).dropLast)

/-- Split a character list at the first occurrence of `c`:
`some (before, after)` when `c` occurs, `none` otherwise. -/
def splitFirst (c : Char) : List Char → Option (List Char × List Char)
  | [] => none
  | x :: xs =>
    if x == c then some ([], xs)
    else (splitFirst c xs).map (fun p => (x :: p.1, p.2))

/-- Go `strings.SplitN(line, "=", 2)` followed by the `len(parts) != 2`
check and the trimming of key and value in `Config.parse`:
`some (key, value)` when the line contains an `=`, `none` otherwise. -/
def splitKV (line : String) : Option (String × String) :=
  (splitFirst '=' line.data).map
    (fun p => (goTrim (String.mk p.1), goTrim (String.mk p.2)))

/-- Go string slice `s[:n]` (by character; timestamps are ASCII). -/
def goTake (s : String) (n : Nat) : String :=
  String.mk (s.data.take n)

/-- Go `len s` (by character; the inputs concerned are ASCII). -/
def goLen (s : String) : Nat :=
  s.data.length

/-! ## internal/config: data model and resolution -/

/-- Config holds pylon configuration (config.go, `Config`). -/
structure Config where
  CalURL : String
  DiscordWebhook : String
  DiscordBotToken : String
  DiscordGuildID : String
  DiscordChannelID : String
  deriving Repr, DecidableEq

/-- The built-in defaults installed at the top of `Load` (config.go:26-28). -/
def defaultConfig : Config :=
  { CalURL := "http://localhost:8085"
    DiscordWebhook := ""
    DiscordBotToken := ""
    DiscordGuildID := ""
    DiscordChannelID := "" }

/-- `Config.set` (config.go:104-123): apply a single key under a section. -/
def set (sec key value : String) (c : Config) : Config :=
  if sec == "cal" then
    if key == "url" then { c with CalURL := value } else c
  else if sec == "discord" then
    if key == "webhook" then { c with DiscordWebhook := value }
    else if key == "bot_token" then { c with DiscordBotToken := value }
    else if key == "guild_id" then { c with DiscordGuildID := value }
    else if key == "channel_id" then { c with DiscordChannelID := value }
    else c
  else c

/-- `Config.parse` (config.go:70-101), as a recursion over the scanned
lines carrying the current section.  A line is trimmed; blank lines and
`#` comments are skipped; `[sec]` switches the section; otherwise the
line is split at its first `=` (no `=` means the line is skipped) and
the trimmed key/value pair is applied via `set`. -/
def parseFrom (sec : String) (c : Config) : List String → Config
  | [] => c
  | l :: ls =>
    if goTrim l == "" || goHasStart (goTrim l) "#" then
      parseFrom sec c ls
    else if goHasStart (goTrim l) "[" && goHasEnd (goTrim l) "]" then
      parseFrom (goTrim (sliceInner (goTrim l))) c ls
    else
      match splitKV (goTrim l) with
      | none => parseFrom sec c ls
      | some kv => parseFrom sec (set sec kv.1 kv.2 c) ls

/-- `Config.parse` starts with the empty section (config.go:72). -/
def parse (c : Config) (lines : List String) : Config :=
  parseFrom "" c lines

/-- The state of `~/.pylonrc` as seen by `loadFile` (config.go:51-67):
the home directory may be undeterminable, the file may be missing,
present with contents, or failing to open with some other error. -/
inductive FileState where
  | noHome
  | missing
  | present (lines : List String)
  | openError (msg : String)

/-- `Config.loadFile` (config.go:51-67): an undeterminable home directory
and a missing file are silently skipped; other open errors propagate;
otherwise the file is parsed. -/
def loadFile (fs : FileState) (c : Config) : Except String Config :=
  match fs with
  | .noHome => .ok c
  | .missing => .ok c
  | .openError m => .error ("open ~/.pylonrc: " ++ m)
  | .present lines => .ok (parse c lines)

/-- The environment is a total map from variable names to values;
Go's `os.Getenv` returns `""` both for unset and for empty variables. -/
def Env : Type := String → String

/-- `Config.applyEnv` (config.go:126-142): each known variable overrides
its field only when its value is non-empty. -/
def applyEnv (env : Env) (c : Config) : Config :=
  let c := if env "PYLON_CAL_URL" != "" then
    { c with CalURL := env "PYLON_CAL_URL" } else c
  let c := if env "PYLON_DISCORD_WEBHOOK" != "" then
    { c with DiscordWebhook := env "PYLON_DISCORD_WEBHOOK" } else c
  let c := if env "PYLON_DISCORD_BOT_TOKEN" != "" then
    { c with DiscordBotToken := env "PYLON_DISCORD_BOT_TOKEN" } else c
  let c := if env "PYLON_DISCORD_GUILD_ID" != "" then
    { c with DiscordGuildID := env "PYLON_DISCORD_GUILD_ID" } else c
  if env "PYLON_DISCORD_CHANNEL_ID" != "" then
    { c with DiscordChannelID := env "PYLON_DISCORD_CHANNEL_ID" } else c

/-- `Load` (config.go:25-39): defaults, then the file, then the
environment overrides. -/
def Load (fs : FileState) (env : Env) : Except String Config :=
  match loadFile fs defaultConfig with
  | .error e => .error e
  | .ok c => .ok (applyEnv env c)

/-! ## What the file assigns to a key

`lastAssignFrom` follows exactly the line discipline of `parseFrom` and
records the value of the last `key = value` line that hits the target
`(section, key)` pair; `none` means the file never sets that key. -/

def lastAssignFrom (t : String × String) (sec : String) : List String → Option String
  | [] => none
  | l :: ls =>
    if goTrim l == "" || goHasStart (goTrim l) "#" then
      lastAssignFrom t sec ls
    else if goHasStart (goTrim l) "[" && goHasEnd (goTrim l) "]" then
      lastAssignFrom t (goTrim (sliceInner (goTrim l))) ls
    else
      match splitKV (goTrim l) with
      | none => lastAssignFrom t sec ls
      | some kv =>
        let rest := lastAssignFrom t sec ls
        if sec == t.1 && kv.1 == t.2 then some (rest.getD kv.2) else rest

/-- The value the config file assigns to `key` in section `sec`,
if any (last occurrence wins, as in `parse`). -/
def lastAssign (sec key : String) (lines : List String) : Option String :=
  lastAssignFrom (sec, key) "" lines

theorem Config.ext (a b : Config)
    (h1 : a.CalURL = b.CalURL)
    (h2 : a.DiscordWebhook = b.DiscordWebhook)
    (h3 : a.DiscordBotToken = b.DiscordBotToken)
    (h4 : a.DiscordGuildID = b.DiscordGuildID)
    (h5 : a.DiscordChannelID = b.DiscordChannelID) : a = b := by
  cases a; cases b; simp_all

theorem set_CalURL (s k v : String) (c : Config) :
    (set s k v c).CalURL = if s == "cal" && k == "url" then v else c.CalURL := by
  simp only [set]
  split_ifs <;> simp_all

theorem set_DiscordWebhook (s k v : String) (c : Config) :
    (set s k v c).DiscordWebhook =
      if s == "discord" && k == "webhook" then v else c.DiscordWebhook := by
  simp only [set]
  split_ifs <;> simp_all

theorem set_DiscordBotToken (s k v : String) (c : Config) :
    (set s k v c).DiscordBotToken =
      if s == "discord" && k == "bot_token" then v else c.DiscordBotToken := by
  simp only [set]
  split_ifs <;> simp_all

theorem set_DiscordGuildID (s k v : String) (c : Config) :
    (set s k v c).DiscordGuildID =
      if s == "discord" && k == "guild_id" then v else c.DiscordGuildID := by
  simp only [set]
  split_ifs <;> simp_all

theorem set_DiscordChannelID (s k v : String) (c : Config) :
    (set s k v c).DiscordChannelID =
      if s == "discord" && k == "channel_id" then v else c.DiscordChannelID := by
  simp only [set]
  split_ifs <;> simp_all

/-- A field getter `g` that `set` touches exactly at the target pair `t`
reads back from `parseFrom` as the last file assignment to `t`,
defaulting to its value in the starting configuration. -/
theorem parseFrom_field (g : Config → String) (t : String × String)
    (H : ∀ s k v c, g (set s k v c) = if s == t.1 && k == t.2 then v else g c)
    (ls : List String) :
    ∀ (sec : String) (c : Config),
      g (parseFrom sec c ls) = (lastAssignFrom t sec ls).getD (g c) := by
  induction ls with
  | nil => intro sec c; rfl
  | cons l ls ih =>
    intro sec c
    by_cases h1 : (goTrim l == "" || goHasStart (goTrim l) "#") = true
    · simp only [parseFrom, lastAssignFrom, h1, if_true]
      exact ih sec c
    · by_cases h2 : (goHasStart (goTrim l) "[" && goHasEnd (goTrim l) "]") = true
      · simp only [parseFrom, lastAssignFrom, h1, h2, if_true, if_false]
        exact ih _ c
      · cases hkv : splitKV (goTrim l) with
        | none =>
          simp only [parseFrom, lastAssignFrom, h1, h2, if_false, hkv]
          exact ih sec c
        | some kv =>
          simp only [parseFrom, lastAssignFrom, h1, h2, if_false, hkv,
            Bool.false_eq_true, if_true]
          by_cases h3 : (sec == t.1 && kv.1 == t.2) = true
          · simp only [h3, if_true, Option.getD_some]
            rw [ih sec (set sec kv.1 kv.2 c), H, h3, if_pos rfl]
          · simp only [h3, if_false]
            rw [ih sec (set sec kv.1 kv.2 c), H]
            simp [h3]

theorem applyEnv_CalURL (env : Env) (c : Config) :
    (applyEnv env c).CalURL =
      if env "PYLON_CAL_URL" != "" then env "PYLON_CAL_URL" else c.CalURL := by
  simp only [applyEnv]
  split_ifs <;> rfl

theorem applyEnv_DiscordWebhook (env : Env) (c : Config) :
    (applyEnv env c).DiscordWebhook =
      if env "PYLON_DISCORD_WEBHOOK" != "" then env "PYLON_DISCORD_WEBHOOK"
      else c.DiscordWebhook := by
  simp only [applyEnv]
  split_ifs <;> rfl

theorem applyEnv_DiscordBotToken (env : Env) (c : Config) :
    (applyEnv env c).DiscordBotToken =
      if env "PYLON_DISCORD_BOT_TOKEN" != "" then env "PYLON_DISCORD_BOT_TOKEN"
      else c.DiscordBotToken := by
  simp only [applyEnv]
  split_ifs <;> rfl

theorem applyEnv_DiscordGuildID (env : Env) (c : Config) :
    (applyEnv env c).DiscordGuildID =
      if env "PYLON_DISCORD_GUILD_ID" != "" then env "PYLON_DISCORD_GUILD_ID"
      else c.DiscordGuildID := by
  simp only [applyEnv]
  split_ifs <;> rfl

theorem applyEnv_DiscordChannelID (env : Env) (c : Config) :
    (applyEnv env c).DiscordChannelID =
      if env "PYLON_DISCORD_CHANNEL_ID" != "" then env "PYLON_DISCORD_CHANNEL_ID"
      else c.DiscordChannelID := by
  simp only [applyEnv]
  split_ifs <;> rfl

/-- C1: configuration resolution obeys layered precedence per field: for
every file contents and environment, each resolved field is the
environment variable when it is set to a non-empty string, otherwise the
last value the file assigns to the corresponding section/key when there
is one, otherwise the built-in default; in particular an empty
environment variable never blanks out a file-provided value. -/
theorem claim1_config_precedence (lines : List String) (env : Env) :
    Load (.present lines) env = .ok
      { CalURL :=
          if env "PYLON_CAL_URL" != "" then env "PYLON_CAL_URL"
          else (lastAssign "cal" "url" lines).getD "http://localhost:8085"
        DiscordWebhook :=
          if env "PYLON_DISCORD_WEBHOOK" != "" then env "PYLON_DISCORD_WEBHOOK"
          else (lastAssign "discord" "webhook" lines).getD ""
        DiscordBotToken :=
          if env "PYLON_DISCORD_BOT_TOKEN" != "" then env "PYLON_DISCORD_BOT_TOKEN"
          else (lastAssign "discord" "bot_token" lines).getD ""
        DiscordGuildID :=
          if env "PYLON_DISCORD_GUILD_ID" != "" then env "PYLON_DISCORD_GUILD_ID"
          else (lastAssign "discord" "guild_id" lines).getD ""
        DiscordChannelID :=
          if env "PYLON_DISCORD_CHANNEL_ID" != "" then env "PYLON_DISCORD_CHANNEL_ID"
          else (lastAssign "discord" "channel_id" lines).getD "" } := by
  show Except.ok (applyEnv env (parse defaultConfig lines)) = _
  congr 1
  apply Config.ext
  · rw [applyEnv_CalURL, parse,
      parseFrom_field (fun c => c.CalURL) ("cal", "url") set_CalURL]
    rfl
  · rw [applyEnv_DiscordWebhook, parse,
      parseFrom_field (fun c => c.DiscordWebhook) ("discord", "webhook")
        set_DiscordWebhook]
    rfl
  · rw [applyEnv_DiscordBotToken, parse,
      parseFrom_field (fun c => c.DiscordBotToken) ("discord", "bot_token")
        set_DiscordBotToken]
    rfl
  · rw [applyEnv_DiscordGuildID, parse,
      parseFrom_field (fun c => c.DiscordGuildID) ("discord", "guild_id")
        set_DiscordGuildID]
    rfl
  · rw [applyEnv_DiscordChannelID, parse,
      parseFrom_field (fun c => c.DiscordChannelID) ("discord", "channel_id")
        set_DiscordChannelID]
    rfl

/-- C9: configuration resolution never fails when the config file does
not exist or the home directory cannot be determined: in both cases
`Load` succeeds with the configuration built from the built-in defaults
plus the environment overrides only. -/
theorem claim9_load_survives_missing_file (env : Env) :
    Load .missing env = .ok (applyEnv env defaultConfig) ∧
    Load .noHome env = .ok (applyEnv env defaultConfig) :=
  ⟨rfl, rfl⟩

/-! ## Noise invariance of config-file parsing -/

/-- The sections `Config.set` knows about. -/
def knownSection (s : String) : Bool :=
  s == "cal" || s == "discord"

/-- The section/key pairs `Config.set` knows about. -/
def knownKey (s k : String) : Bool :=
  (s == "cal" && k == "url") ||
  (s == "discord" &&
    (k == "webhook" || k == "bot_token" || k == "guild_id" || k == "channel_id"))

theorem knownKey_imp_knownSection (s k : String) (h : knownKey s k = true) :
    knownSection s = true := by
  simp only [knownKey, knownSection, Bool.or_eq_true, Bool.and_eq_true] at h ⊢
  rcases h with ⟨h, _⟩ | ⟨h, _⟩
  · exact Or.inl h
  · exact Or.inr h

theorem set_unknown (s k v : String) (c : Config) (h : knownKey s k = false) :
    set s k v c = c := by
  simp only [set]
  split_ifs <;> simp_all [knownKey]

/-- Remove the noise `parse` ignores, following `parse`'s own line
discipline: comments, blank lines, malformed lines (no `=`), unknown
sections together with the lines under them, and unknown keys within
known sections. -/
def stripFrom (sec : String) : List String → List String
  | [] => []
  | l :: ls =>
    if goTrim l == "" || goHasStart (goTrim l) "#" then
      stripFrom sec ls
    else if goHasStart (goTrim l) "[" && goHasEnd (goTrim l) "]" then
      if knownSection (goTrim (sliceInner (goTrim l))) then
        l :: stripFrom (goTrim (sliceInner (goTrim l))) ls
      else
        stripFrom (goTrim (sliceInner (goTrim l))) ls
    else
      match splitKV (goTrim l) with
      | none => stripFrom sec ls
      | some kv =>
        if knownKey sec kv.1 then l :: stripFrom sec ls else stripFrom sec ls

/-- `stripFrom` starting from the initial empty section, as `parse` does. -/
def stripNoise (lines : List String) : List String :=
  stripFrom "" lines

/-- Parsing is invariant under stripping, generalized over the two
section states: the parse of the stripped tail may run in section
`psec` while the original runs in `sec`, provided they agree or `sec`
is unknown (in which case the stripped tail holds no key lines until
the next kept header resynchronizes both). -/
theorem parseFrom_stripFrom (ls : List String) :
    ∀ (sec psec : String) (c : Config), sec = psec ∨ knownSection sec = false →
      parseFrom psec c (stripFrom sec ls) = parseFrom sec c ls := by
  induction ls with
  | nil => intro sec psec c _; rfl
  | cons l ls ih =>
    intro sec psec c hsp
    by_cases h1 : (goTrim l == "" || goHasStart (goTrim l) "#") = true
    · simp only [stripFrom, parseFrom, h1, if_true]
      exact ih sec psec c hsp
    · by_cases h2 : (goHasStart (goTrim l) "[" && goHasEnd (goTrim l) "]") = true
      · by_cases h3 : knownSection (goTrim (sliceInner (goTrim l))) = true
        · simp only [stripFrom, parseFrom, h1, h2, h3, Bool.false_eq_true,
            if_false, if_true]
          exact ih _ _ c (Or.inl rfl)
        · simp only [stripFrom, parseFrom, h1, h2, h3, Bool.false_eq_true,
            if_false, if_true]
          exact ih _ psec c (Or.inr (by simpa using h3))
      · cases hkv : splitKV (goTrim l) with
        | none =>
          simp only [stripFrom, parseFrom, h1, h2, hkv, Bool.false_eq_true,
            if_false]
          exact ih sec psec c hsp
        | some kv =>
          by_cases h4 : knownKey sec kv.1 = true
          · have hks : knownSection sec = true := knownKey_imp_knownSection _ _ h4
            have hpe : sec = psec := hsp.resolve_right (by simp [hks])
            subst hpe
            simp only [stripFrom, parseFrom, h1, h2, hkv, h4, Bool.false_eq_true,
              if_false, if_true]
            exact ih sec sec _ (Or.inl rfl)
          · simp only [stripFrom, parseFrom, h1, h2, hkv, h4, Bool.false_eq_true,
              if_false]
            rw [set_unknown _ _ _ _ (by simpa using h4)]
            exact ih sec psec c hsp

theorem splitFirst_no_occurrence (c : Char) (a b : List Char) (h : c ∉ a) :
    splitFirst c (a ++ c :: b) = some (a, b) := by
  induction a with
  | nil => simp [splitFirst]
  | cons x xs ih =>
    have hx : (x == c) = false := by
      simp only [beq_eq_false_iff_ne, ne_eq]
      exact fun hxc => h (hxc ▸ List.mem_cons_self x xs)
    simp only [List.cons_append, splitFirst, hx, Bool.false_eq_true, if_false,
      List.append_eq]
    rw [ih (fun hm => h (List.mem_cons_of_mem x hm))]
    rfl

/-- C8: config-file parsing is noise-invariant: parsing a file with
comments, blank lines, malformed lines, unknown sections (with their
contents), and unknown keys removed yields exactly the same
configuration as parsing the original file; moreover a key line is
split at its first `=` only, with key and value trimmed, so a value may
itself contain `=` characters. -/
theorem claim8_parse_noise_invariant :
    (∀ (lines : List String) (c : Config),
      parse c (stripNoise lines) = parse c lines) ∧
    (∀ a b : String, '=' ∉ a.data →
      splitKV (a ++ "=" ++ b) = some (goTrim a, goTrim b)) := by
  constructor
  · intro lines c
    exact parseFrom_stripFrom lines "" "" c (Or.inl rfl)
  · intro a b h
    have hdata : (a ++ "=" ++ b).data = a.data ++ '=' :: b.data := by
      rw [String.data_append, String.data_append, List.append_assoc]
      rfl
    simp only [splitKV, hdata, splitFirst_no_occurrence '=' a.data b.data h,
      Option.map_some]
    rfl

/-- Witness for C8 on a concrete noisy file and a concrete value
containing `=`. -/
theorem claim8_witness :
    parse defaultConfig
        (stripNoise
          ["# comment", "", "[junk]", "bot_token = zzz", "[cal]", "dangling",
           "nope = 1", "url = http://h?a=b", "  [discord]  ", "webhook = w"]) =
      parse defaultConfig
        ["# comment", "", "[junk]", "bot_token = zzz", "[cal]", "dangling",
         "nope = 1", "url = http://h?a=b", "  [discord]  ", "webhook = w"] ∧
    splitKV ("url " ++ "=" ++ " http://h?a=b") = some ("url", "http://h?a=b") :=
  ⟨claim8_parse_noise_invariant.1 _ defaultConfig,
   claim8_parse_noise_invariant.2 "url " " http://h?a=b" (by decide)⟩

/-! ## HTTP transport model

Each client owns an `http.Client`; we model the transport as a function
from requests to results and have every operation return the list of
requests it issued alongside its result, so "zero network accesses" is
the statement that the list is empty. -/

/-- An HTTP request as built by the clients. -/
structure HttpRequest where
  method : String
  url : String
  headers : List (String × String)
  body : Option String
  deriving Repr, DecidableEq

/-- What the transport gives back: a status code and body, or a
transport-level failure (network/DNS/timeout). -/
inductive NetResult where
  | ok (status : Nat) (body : String)
  | fail (msg : String)

/-- The transport: one response per request. -/
def Net : Type := HttpRequest → NetResult

/-! ## internal/discord: data model -/

/-- `apiBase` (discord/client.go:13). -/
def apiBase : String := "https://discord.com/api/v10"

/-- `discord.Client` (discord/client.go:16-20); the `http.Client` is the
`Net` parameter of each operation. -/
structure DiscordClient where
  botToken : String
  webhookURL : String

/-- `discord.Author` (discord/client.go:47-50). -/
structure Author where
  username : String
  globalName : String
  deriving Repr, DecidableEq

/-- `Author.DisplayName` (discord/client.go:53-58). -/
def DisplayName (a : Author) : String :=
  if a.globalName != "" then a.globalName else a.username

/-- The anonymous referenced-message struct (discord/client.go:40-43). -/
structure MsgRef where
  content : String
  author : Author
  deriving Repr, DecidableEq

/-- `discord.Message` (discord/client.go:35-44); `reference` is `none`
when the JSON `referenced_message` field is absent (a nil pointer). -/
structure Message where
  id : String
  content : String
  timestamp : String
  author : Author
  reference : Option MsgRef
  deriving Repr, DecidableEq

/-- `discord.Channel` (discord/client.go:61-66). -/
structure Channel where
  id : String
  name : String
  type : Int
  position : Int
  deriving Repr, DecidableEq

/-! ## internal/discord: operations -/

/-- The request `botGet` builds (discord/client.go:184-189): a GET with
the bot authorization header and an Accept header. -/
def botGetReq (token url : String) : HttpRequest :=
  { method := "GET"
    url := url
    headers := [("Authorization", "Bot " ++ token), ("Accept", "application/json")]
    body := none }

/-- `Client.botGet` (discord/client.go:183-202): issue the authenticated
GET; a transport failure or a status other than 200 is an error, with
the non-200 error message embedding the status code and the raw body. -/
def botGet (token : String) (net : Net) (url : String) :
    HttpRequest × Except String String :=
  match net (botGetReq token url) with
  | .fail m => (botGetReq token url, .error ("request failed: " ++ m))
  | .ok status body =>
    if status == 200 then (botGetReq token url, .ok body)
    else
      (botGetReq token url,
       .error ("Discord API error (status " ++ toString status ++ "): " ++ body))

/-- The JSON payload `{"content": message}` marshalled by `SendMessage`
(discord/client.go:74); the quoting of `message` is left abstract as the
exact `encoding/json` escaping is irrelevant to the claims. -/
def webhookPayload (message : String) : String :=
  "\x7b\"content\":\"" ++ message ++ "\"\x7d"

/-- `Client.SendMessage` (discord/client.go:69-90): fail fast when no
webhook URL is configured; POST the payload; statuses 204 (no content)
and 200 (ok) are success, anything else is an error carrying the status
and body. -/
def SendMessage (c : DiscordClient) (net : Net) (message : String) :
    List HttpRequest × Except String Unit :=
  if c.webhookURL == "" then
    ([], .error "webhook URL not configured (set PYLON_DISCORD_WEBHOOK)")
  else
    let req : HttpRequest :=
      { method := "POST"
        url := c.webhookURL
        headers := [("Content-Type", "application/json")]
        body := some (webhookPayload message) }
    match net req with
    | .fail m => ([req], .error ("request failed: " ++ m))
    | .ok status body =>
      if status == 204 || status == 200 then ([req], .ok ())
      else ([req], .error ("unexpected status " ++ toString status ++ ": " ++ body))

/-- `Client.ReadMessages` (discord/client.go:94-122): fail fast on a
missing bot token or channel id; clamp the limit to the default 20 when
non-positive or above 100; issue the authenticated GET; unmarshal
(`decode` is the `json.Unmarshal` oracle); reverse the newest-first
slice in place (the swap loop is `Array.reverse`). -/
def ReadMessages (c : DiscordClient) (net : Net)
    (decode : String → Option (List Message)) (channelID : String) (limit : Int) :
    List HttpRequest × Except String (List Message) :=
  if c.botToken == "" then
    ([], .error "bot token not configured (set PYLON_DISCORD_BOT_TOKEN)")
  else if channelID == "" then
    ([], .error "channel ID required")
  else
    let limit : Int := if limit ≤ 0 ∨ limit > 100 then 20 else limit
    let url := apiBase ++ "/channels/" ++ channelID ++ "/messages?limit=" ++ toString limit
    let r := botGet c.botToken net url
    match r.2 with
    | .error e => ([r.1], .error e)
    | .ok body =>
      match decode body with
      | none => ([r.1], .error "parse response: unmarshal error")
      | some msgs => ([r.1], .ok msgs.toArray.reverse.toList)

/-- `Client.ListChannels` (discord/client.go:125-152): fail fast on a
missing bot token or guild id; issue the authenticated GET; unmarshal;
keep only channels whose type is 0, appending in order as the Go loop
does. -/
def ListChannels (c : DiscordClient) (net : Net)
    (decode : String → Option (List Channel)) (guildID : String) :
    List HttpRequest × Except String (List Channel) :=
  if c.botToken == "" then
    ([], .error "bot token not configured (set PYLON_DISCORD_BOT_TOKEN)")
  else if guildID == "" then
    ([], .error "guild ID required")
  else
    let url := apiBase ++ "/guilds/" ++ guildID ++ "/channels"
    let r := botGet c.botToken net url
    match r.2 with
    | .error e => ([r.1], .error e)
    | .ok body =>
      match decode body with
      | none => ([r.1], .error "parse response: unmarshal error")
      | some all =>
        ([r.1], .ok (all.foldl (fun text ch => if ch.type == 0 then text ++ [ch] else text) []))

/-! ## internal/discord: message formatting -/

/-- One character under Go's `%q` quoting (`strconv.Quote`), restricted
to the escapes that arise on message text: quote, backslash and the
common control characters; other characters pass through unchanged. -/
def goQuoteChar (c : Char) : String :=
  if c == '"' then "\\\""
  else if c == '\\' then "\\\\"
  else if c == '\n' then "\\n"
  else if c == '\t' then "\\t"
  else if c == '\r' then "\\r"
  else String.mk [c]

/-- Concatenation of a list of strings. -/
def concatStrings : List String → String
  | [] => ""
  | s :: rest => s ++ concatStrings rest

/-- Go `%q`: the argument in double quotes with escapes. -/
def goQuote (s : String) : String :=
  "\"" ++ concatStrings (s.data.map goQuoteChar) ++ "\""

/-- The line the loop body of `FormatMessages` appends for one message
(discord/client.go:157-178): truncate the timestamp to 19 characters
when at least that long, use the author display name, replace empty
content by `(no text)`, and add the reply clause when a referenced
message is present. -/
def formatOne (m : Message) : String :=
  let ts := if goLen m.timestamp ≥ 19 then goTake m.timestamp 19 else m.timestamp
  let author := DisplayName m.author
  let content := if m.content == "" then "(no text)" else m.content
  match m.reference with
  | some ref =>
    let refAuthor := DisplayName ref.author
    let refContent := if ref.content == "" then "(no text)" else ref.content
    "[" ++ ts ++ "] " ++ author ++ " (reply to " ++ refAuthor ++ ": " ++
      goQuote refContent ++ "): " ++ content ++ "\n"
  | none =>
    "[" ++ ts ++ "] " ++ author ++ ": " ++ content ++ "\n"

/-- `FormatMessages` (discord/client.go:155-180): a string builder over
the messages, appending one line each. -/
def FormatMessages (msgs : List Message) : String :=
  msgs.foldl (fun sb m => sb ++ formatOne m) ""

/-! ## Theorems: messaging client -/

theorem botGet_fst (t : String) (net : Net) (url : String) :
    (botGet t net url).1 = botGetReq t url := by
  unfold botGet
  cases net (botGetReq t url) with
  | fail m => rfl
  | ok s b =>
    dsimp only
    split <;> rfl

theorem botGet_snd_ok (t : String) (net : Net) (url body : String)
    (hnet : ∀ r, net r = .ok 200 body) :
    (botGet t net url).2 = .ok body := by
  unfold botGet
  rw [hnet (botGetReq t url)]
  rfl

theorem foldl_append_filter {α : Type} (p : α → Bool) (l : List α) :
    ∀ acc : List α,
      l.foldl (fun acc x => if p x then acc ++ [x] else acc) acc = acc ++ l.filter p := by
  induction l with
  | nil => intro acc; simp
  | cons x xs ih =>
    intro acc
    by_cases h : p x = true
    · simp only [List.foldl_cons, h, if_true, ih, List.filter_cons, List.append_assoc]
      rfl
    · simp only [List.foldl_cons, h, Bool.false_eq_true, if_false, ih, List.filter_cons]

/-- C2: for every list of messages returned by the server (newest
first), `ReadMessages` returns exactly the reverse of the decoded
sequence, so callers receive chronological order. -/
theorem claim2_read_messages_chronological (c : DiscordClient) (net : Net)
    (decode : String → Option (List Message)) (channelID body : String)
    (limit : Int) (msgs : List Message)
    (htok : c.botToken ≠ "") (hch : channelID ≠ "")
    (hnet : ∀ r, net r = .ok 200 body) (hdec : decode body = some msgs) :
    (ReadMessages c net decode channelID limit).2 = .ok msgs.reverse := by
  have h1 : (c.botToken == "") = false := beq_eq_false_iff_ne.mpr htok
  have h2 : (channelID == "") = false := beq_eq_false_iff_ne.mpr hch
  simp only [ReadMessages, h1, h2, Bool.false_eq_true, if_false]
  rw [botGet_snd_ok _ _ _ _ hnet]
  dsimp only
  rw [hdec]
  simp

/-- Witness for C2: ids `[3, 2, 1]` come back as `[1, 2, 3]`. -/
theorem claim2_witness :
    (ReadMessages ⟨"tok", ""⟩ (fun _ => .ok 200 "B")
      (fun _ => some
        [⟨"3", "c3", "t3", ⟨"u", ""⟩, none⟩,
         ⟨"2", "c2", "t2", ⟨"u", ""⟩, none⟩,
         ⟨"1", "c1", "t1", ⟨"u", ""⟩, none⟩])
      "chan" 50).2 =
    .ok [⟨"1", "c1", "t1", ⟨"u", ""⟩, none⟩,
         ⟨"2", "c2", "t2", ⟨"u", ""⟩, none⟩,
         ⟨"3", "c3", "t3", ⟨"u", ""⟩, none⟩] :=
  claim2_read_messages_chronological ⟨"tok", ""⟩ (fun _ => .ok 200 "B")
    (fun _ => some
      [⟨"3", "c3", "t3", ⟨"u", ""⟩, none⟩,
       ⟨"2", "c2", "t2", ⟨"u", ""⟩, none⟩,
       ⟨"1", "c1", "t1", ⟨"u", ""⟩, none⟩])
    "chan" "B" 50
    [⟨"3", "c3", "t3", ⟨"u", ""⟩, none⟩,
     ⟨"2", "c2", "t2", ⟨"u", ""⟩, none⟩,
     ⟨"1", "c1", "t1", ⟨"u", ""⟩, none⟩]
    (by decide) (by decide) (fun _ => rfl) rfl

/-- C3: `ListChannels` returns exactly the subsequence of channels of
type 0, in order; channels of any other type are never returned. -/
theorem claim3_list_channels_filter (c : DiscordClient) (net : Net)
    (decode : String → Option (List Channel)) (guildID body : String)
    (chans : List Channel)
    (htok : c.botToken ≠ "") (hg : guildID ≠ "")
    (hnet : ∀ r, net r = .ok 200 body) (hdec : decode body = some chans) :
    (ListChannels c net decode guildID).2 =
      .ok (chans.filter (fun ch => ch.type == 0)) ∧
    ∀ l ch, (ListChannels c net decode guildID).2 = .ok l → ch ∈ l → ch.type = 0 := by
  have h1 : (c.botToken == "") = false := beq_eq_false_iff_ne.mpr htok
  have h2 : (guildID == "") = false := beq_eq_false_iff_ne.mpr hg
  have hmain : (ListChannels c net decode guildID).2 =
      .ok (chans.filter (fun ch => ch.type == 0)) := by
    simp only [ListChannels, h1, h2, Bool.false_eq_true, if_false]
    rw [botGet_snd_ok _ _ _ _ hnet]
    dsimp only
    rw [hdec]
    simp only [foldl_append_filter, List.nil_append]
  refine ⟨hmain, ?_⟩
  intro l ch hl hmem
  rw [hmain] at hl
  cases hl
  have := List.of_mem_filter hmem
  simpa using this

/-- Witness for C3: types `[0, 2, 0]` yield exactly the two channels of
type 0 in order. -/
theorem claim3_witness :
    (ListChannels ⟨"tok", ""⟩ (fun _ => .ok 200 "B")
      (fun _ => some [⟨"1", "general", 0, 0⟩, ⟨"2", "voice", 2, 1⟩, ⟨"3", "dev", 0, 2⟩])
      "guild").2 =
    .ok [⟨"1", "general", 0, 0⟩, ⟨"3", "dev", 0, 2⟩] :=
  (claim3_list_channels_filter ⟨"tok", ""⟩ (fun _ => .ok 200 "B")
    (fun _ => some [⟨"1", "general", 0, 0⟩, ⟨"2", "voice", 2, 1⟩, ⟨"3", "dev", 0, 2⟩])
    "guild" "B"
    [⟨"1", "general", 0, 0⟩, ⟨"2", "voice", 2, 1⟩, ⟨"3", "dev", 0, 2⟩]
    (by decide) (by decide) (fun _ => rfl) rfl).1

/-- C5: messaging operations fail fast with a configuration error and
issue zero HTTP requests when a required setting is absent. -/
theorem claim5_fail_fast_no_requests (c : DiscordClient) (net : Net)
    (dm : String → Option (List Message)) (dc : String → Option (List Channel))
    (message channelID guildID : String) (limit : Int) :
    (c.webhookURL = "" →
      SendMessage c net message =
        ([], .error "webhook URL not configured (set PYLON_DISCORD_WEBHOOK)")) ∧
    (c.botToken = "" →
      ReadMessages c net dm channelID limit =
        ([], .error "bot token not configured (set PYLON_DISCORD_BOT_TOKEN)")) ∧
    (c.botToken ≠ "" → channelID = "" →
      ReadMessages c net dm channelID limit = ([], .error "channel ID required")) ∧
    (c.botToken = "" →
      ListChannels c net dc guildID =
        ([], .error "bot token not configured (set PYLON_DISCORD_BOT_TOKEN)")) ∧
    (c.botToken ≠ "" → guildID = "" →
      ListChannels c net dc guildID = ([], .error "guild ID required")) := by
  refine ⟨?_, ?_, ?_, ?_, ?_⟩
  · intro h; simp [SendMessage, h]
  · intro h; simp [ReadMessages, h]
  · intro h hch
    have h1 : (c.botToken == "") = false := beq_eq_false_iff_ne.mpr h
    simp [ReadMessages, h1, hch]
  · intro h; simp [ListChannels, h]
  · intro h hg
    have h1 : (c.botToken == "") = false := beq_eq_false_iff_ne.mpr h
    simp [ListChannels, h1, hg]

/-- Witness for C5 on concrete unconfigured clients. -/
theorem claim5_witness :
    (SendMessage ⟨"tok", ""⟩ (fun _ => .ok 200 "") "hi" =
      ([], .error "webhook URL not configured (set PYLON_DISCORD_WEBHOOK)")) ∧
    (ReadMessages ⟨"", "hook"⟩ (fun _ => .ok 200 "") (fun _ => none) "chan" 5 =
      ([], .error "bot token not configured (set PYLON_DISCORD_BOT_TOKEN)")) ∧
    (ReadMessages ⟨"tok", "hook"⟩ (fun _ => .ok 200 "") (fun _ => none) "" 5 =
      ([], .error "channel ID required")) ∧
    (ListChannels ⟨"", "hook"⟩ (fun _ => .ok 200 "") (fun _ => none) "guild" =
      ([], .error "bot token not configured (set PYLON_DISCORD_BOT_TOKEN)")) ∧
    (ListChannels ⟨"tok", "hook"⟩ (fun _ => .ok 200 "") (fun _ => none) "" =
      ([], .error "guild ID required")) :=
  ⟨(claim5_fail_fast_no_requests ⟨"tok", ""⟩ _ (fun _ => none) (fun _ => none)
      "hi" "chan" "guild" 5).1 rfl,
   (claim5_fail_fast_no_requests ⟨"", "hook"⟩ _ (fun _ => none) (fun _ => none)
      "hi" "chan" "guild" 5).2.1 rfl,
   (claim5_fail_fast_no_requests ⟨"tok", "hook"⟩ _ (fun _ => none) (fun _ => none)
      "hi" "" "guild" 5).2.2.1 (by decide) rfl,
   (claim5_fail_fast_no_requests ⟨"", "hook"⟩ _ (fun _ => none) (fun _ => none)
      "hi" "chan" "guild" 5).2.2.2.1 rfl,
   (claim5_fail_fast_no_requests ⟨"tok", "hook"⟩ _ (fun _ => none) (fun _ => none)
      "hi" "chan" "" 5).2.2.2.2 (by decide) rfl⟩

theorem readMessages_requests (c : DiscordClient) (net : Net)
    (dm : String → Option (List Message)) (channelID : String) (limit : Int)
    (htok : c.botToken ≠ "") (hch : channelID ≠ "") :
    (ReadMessages c net dm channelID limit).1 =
      [botGetReq c.botToken
        (apiBase ++ "/channels/" ++ channelID ++ "/messages?limit=" ++
          toString (if limit ≤ 0 ∨ limit > 100 then (20 : Int) else limit))] := by
  have h1 : (c.botToken == "") = false := beq_eq_false_iff_ne.mpr htok
  have h2 : (channelID == "") = false := beq_eq_false_iff_ne.mpr hch
  simp only [ReadMessages, h1, h2, Bool.false_eq_true, if_false]
  rw [← botGet_fst c.botToken net
    (apiBase ++ "/channels/" ++ channelID ++ "/messages?limit=" ++
      toString (if limit ≤ 0 ∨ limit > 100 then (20 : Int) else limit))]
  cases (botGet c.botToken net
    (apiBase ++ "/channels/" ++ channelID ++ "/messages?limit=" ++
      toString (if limit ≤ 0 ∨ limit > 100 then (20 : Int) else limit))).2 with
  | error e => dsimp only
  | ok body =>
    dsimp only
    cases dm body <;> dsimp only

/-- C6: `ReadMessages` requests the requested limit when it lies in
`[1, 100]` and substitutes the default 20 when it is non-positive or
above the hard cap 100. -/
theorem claim6_limit_clamping (c : DiscordClient) (net : Net)
    (dm : String → Option (List Message)) (channelID : String) (limit : Int)
    (htok : c.botToken ≠ "") (hch : channelID ≠ "") :
    ((1 ≤ limit ∧ limit ≤ 100) →
      (ReadMessages c net dm channelID limit).1 =
        [botGetReq c.botToken
          (apiBase ++ "/channels/" ++ channelID ++ "/messages?limit=" ++ toString limit)]) ∧
    ((limit ≤ 0 ∨ limit > 100) →
      (ReadMessages c net dm channelID limit).1 =
        [botGetReq c.botToken
          (apiBase ++ "/channels/" ++ channelID ++ "/messages?limit=" ++
            toString (20 : Int))]) := by
  constructor
  · intro hin
    rw [readMessages_requests c net dm channelID limit htok hch,
      if_neg (by omega)]
  · intro hout
    rw [readMessages_requests c net dm channelID limit htok hch,
      if_pos hout]

/-- Witness for C6: limit 50 is used as-is, limit 500 becomes 20. -/
theorem claim6_witness :
    (ReadMessages ⟨"tok", ""⟩ (fun _ => .ok 200 "") (fun _ => none) "chan" 50).1 =
      [botGetReq "tok" "https://discord.com/api/v10/channels/chan/messages?limit=50"] ∧
    (ReadMessages ⟨"tok", ""⟩ (fun _ => .ok 200 "") (fun _ => none) "chan" 500).1 =
      [botGetReq "tok" "https://discord.com/api/v10/channels/chan/messages?limit=20"] :=
  ⟨(claim6_limit_clamping ⟨"tok", ""⟩ (fun _ => .ok 200 "") (fun _ => none) "chan" 50
      (by decide) (by decide)).1 ⟨by decide, by decide⟩,
   (claim6_limit_clamping ⟨"tok", ""⟩ (fun _ => .ok 200 "") (fun _ => none) "chan" 500
      (by decide) (by decide)).2 (Or.inr (by decide))⟩

/-! ## Theorems: message formatting (C7)

The specification describes the rendering line by line; `formatLineSpec`
below is that description written out (the refinement target), and C7
states that the builder-style `FormatMessages` renders exactly the
concatenation of those lines. -/

/-- Spec wording: the display name prefers the global display name and
falls back to the raw username when absent. -/
def displayNameSpec (a : Author) : String :=
  if a.globalName == "" then a.username else a.globalName

/-- Spec wording: empty content renders as the placeholder `(no text)`. -/
def placeholderSpec (s : String) : String :=
  if s == "" then "(no text)" else s

/-- Spec wording: the timestamp is truncated to its first 19 characters
when at least that long. -/
def truncateTsSpec (ts : String) : String :=
  if goLen ts ≥ 19 then goTake ts 19 else ts

/-- Spec wording of one rendered line:
`[<timestamp>] <display-name>: <content-or-placeholder>`, with the
`(reply to <parent-display-name>: "<parent-content-or-placeholder>")`
clause when a parent reference is present. -/
def formatLineSpec (m : Message) : String :=
  match m.reference with
  | none =>
    "[" ++ truncateTsSpec m.timestamp ++ "] " ++ displayNameSpec m.author ++ ": " ++
      placeholderSpec m.content ++ "\n"
  | some ref =>
    "[" ++ truncateTsSpec m.timestamp ++ "] " ++ displayNameSpec m.author ++
      " (reply to " ++ displayNameSpec ref.author ++ ": " ++
      goQuote (placeholderSpec ref.content) ++ "): " ++ placeholderSpec m.content ++ "\n"

theorem displayName_eq_spec (a : Author) : DisplayName a = displayNameSpec a := by
  simp only [DisplayName, displayNameSpec, bne]
  by_cases h : a.globalName = "" <;> simp [h]

theorem formatOne_eq_spec (m : Message) : formatOne m = formatLineSpec m := by
  simp only [formatOne, formatLineSpec, truncateTsSpec, placeholderSpec,
    displayName_eq_spec]
  cases m.reference <;> rfl

theorem foldl_append_concat {α : Type} (f : α → String) (l : List α) :
    ∀ acc : String,
      l.foldl (fun sb m => sb ++ f m) acc = acc ++ concatStrings (l.map f) := by
  induction l with
  | nil =>
    intro acc
    simp only [List.foldl_nil, List.map_nil, concatStrings, String.append_empty]
  | cons x xs ih =>
    intro acc
    simp only [List.foldl_cons, List.map_cons, concatStrings, ih,
      String.append_assoc]

/-- C7: `FormatMessages` is a pure rendering: it returns exactly the
concatenation of the per-message lines described by the specification
(timestamp truncated to 19 characters when at least that long, display
name falling back to the username, `(no text)` placeholder for empty
content of message or parent, and a reply clause when a parent reference
is present); and the truncation maps the sample ISO-8601 timestamp to
second precision. -/
theorem claim7_format_messages (msgs : List Message) :
    FormatMessages msgs = concatStrings (msgs.map formatLineSpec) ∧
    truncateTsSpec "2026-02-18T10:30:00.000Z" = "2026-02-18T10:30:00" := by
  constructor
  · unfold FormatMessages
    rw [foldl_append_concat formatOne msgs]
    have : msgs.map formatOne = msgs.map formatLineSpec :=
      List.map_congr_left (fun m _ => formatOne_eq_spec m)
    rw [this]
    rfl
  · decide

/-! ## internal/cal: data model and operations -/

/-- `cal.Client` (cal/client.go:13-16); the `http.Client` is the `Net`
parameter of each operation. -/
structure CalClient where
  baseURL : String

/-- `cal.Feed` (cal/client.go:29-35); `time.Time` fields are modelled as
their wire strings. -/
structure Feed where
  id : String
  name : String
  token : String
  createdAt : String
  updatedAt : String
  deriving Repr, DecidableEq

/-- `cal.APIError` (cal/client.go:79-82). -/
structure APIError where
  StatusCode : Nat
  Msg : String
  deriving Repr, DecidableEq

/-- The cal client's error taxonomy: transport failures, `APIError`s
from non-success statuses, and decode failures, kept distinct as the
Go code keeps distinct error values. -/
inductive CalErr where
  | transport (msg : String)
  | api (e : APIError)
  | decode (msg : String)
  deriving Repr, DecidableEq

/-- `parseError` (cal/client.go:231-240): when the body unmarshals as
JSON with a non-empty `error` string field, use that field as the
message; otherwise use the raw body text verbatim; always attach the
status code.  `um` is the `json.Unmarshal` oracle for the
`struct { Error string }` shape: `none` is an unmarshal error, `some e`
a successful parse whose `error` field was `e` (an absent field
unmarshals to `""`). -/
def parseError (um : String → Option String) (status : Nat) (body : String) : APIError :=
  match um body with
  | some e => if e != "" then ⟨status, e⟩ else ⟨status, body⟩
  | none => ⟨status, body⟩

/-- `Client.ListFeeds` (cal/client.go:119-135): GET `/api/feeds`; status
200 decodes the feed list; any other status is normalized through
`parseError`. -/
def ListFeeds (c : CalClient) (net : Net) (um : String → Option String)
    (decode : String → Option (List Feed)) :
    List HttpRequest × Except CalErr (List Feed) :=
  let req : HttpRequest :=
    { method := "GET", url := c.baseURL ++ "/api/feeds", headers := [], body := none }
  match net req with
  | .fail m => ([req], .error (.transport m))
  | .ok status body =>
    if status != 200 then ([req], .error (.api (parseError um status body)))
    else
      match decode body with
      | none => ([req], .error (.decode "decode response"))
      | some feeds => ([req], .ok feeds)

/-- `Client.DeleteFeed` (cal/client.go:138-149): DELETE
`/api/feeds/{id}`; status 204 is success; any other status is
normalized through `parseError`. -/
def DeleteFeed (c : CalClient) (net : Net) (um : String → Option String)
    (id : String) : List HttpRequest × Except CalErr Unit :=
  let req : HttpRequest :=
    { method := "DELETE", url := c.baseURL ++ "/api/feeds/" ++ id,
      headers := [], body := none }
  match net req with
  | .fail m => ([req], .error (.transport m))
  | .ok status body =>
    if status != 204 then ([req], .error (.api (parseError um status body)))
    else ([req], .ok ())

/-- `Client.SubscribeURL` (cal/client.go:209-211). -/
def SubscribeURL (c : CalClient) (token : String) : String :=
  c.baseURL ++ "/cal/" ++ token ++ ".ics"

/-! ## Theorems: calendar error normalization -/

/-- C4: on every non-success HTTP status the calendar client returns an
`APIError` carrying the numeric status code, with the `error` string
field as message when the body parses as JSON containing a non-empty
one, and the raw body text verbatim otherwise — uniformly for
structured JSON and raw-text bodies. -/
theorem claim4_error_normalization (c : CalClient) (net : Net)
    (um : String → Option String) (decode : String → Option (List Feed))
    (status : Nat) (body : String)
    (hnet : ∀ r, net r = .ok status body) (hstatus : status ≠ 200) :
    (∀ e, um body = some e → e ≠ "" →
      (ListFeeds c net um decode).2 = .error (.api ⟨status, e⟩)) ∧
    (um body = none →
      (ListFeeds c net um decode).2 = .error (.api ⟨status, body⟩)) := by
  have hs : (status != 200) = true := by
    simp only [bne_iff_ne, ne_eq]
    exact hstatus
  constructor
  · intro e hum he
    have he2 : (e != "") = true := by
      simp only [bne_iff_ne, ne_eq]
      exact he
    simp only [ListFeeds]
    rw [hnet]
    dsimp only
    simp only [hs, if_true, parseError, hum, he2]
  · intro hum
    simp only [ListFeeds]
    rw [hnet]
    dsimp only
    simp only [hs, if_true, parseError, hum]

/-- Witness for C4: a 500 with body `{"error":"x"}` yields message `x`;
a 500 with non-JSON body `boom` yields message `boom`. -/
theorem claim4_witness :
    (ListFeeds ⟨"http://cal"⟩ (fun _ => .ok 500 "\x7b\"error\":\"x\"\x7d")
      (fun _ => some "x") (fun _ => none)).2 =
      .error (.api ⟨500, "x"⟩) ∧
    (ListFeeds ⟨"http://cal"⟩ (fun _ => .ok 500 "boom")
      (fun _ => none) (fun _ => none)).2 =
      .error (.api ⟨500, "boom"⟩) :=
  ⟨(claim4_error_normalization ⟨"http://cal"⟩ (fun _ => .ok 500 "\x7b\"error\":\"x\"\x7d")
      (fun _ => some "x") (fun _ => none) 500 "\x7b\"error\":\"x\"\x7d"
      (fun _ => rfl) (by decide)).1 "x" rfl (by decide),
   (claim4_error_normalization ⟨"http://cal"⟩ (fun _ => .ok 500 "boom")
      (fun _ => none) (fun _ => none) 500 "boom"
      (fun _ => rfl) (by decide)).2 rfl⟩

/-- C10: when a non-success calendar response body parses as JSON but
its `error` field is absent or empty, the resulting `APIError` message
is the raw body text verbatim, never the empty extracted field. -/
theorem claim10_empty_error_field_raw_body (c : CalClient) (net : Net)
    (um : String → Option String) (id : String) (status : Nat) (body : String)
    (hnet : ∀ r, net r = .ok status body) (hstatus : status ≠ 204)
    (hum : um body = some "") :
    (DeleteFeed c net um id).2 = .error (.api ⟨status, body⟩) := by
  have hs : (status != 204) = true := by
    simp only [bne_iff_ne, ne_eq]
    exact hstatus
  simp only [DeleteFeed]
  rw [hnet]
  dsimp only
  simp only [hs, if_true, parseError, hum]
  rfl

/-- Witness for C10 at body `{"error":""}` with status 500. -/
theorem claim10_witness :
    (DeleteFeed ⟨"http://cal"⟩ (fun _ => .ok 500 "\x7b\"error\":\"\"\x7d")
      (fun _ => some "") "feed-1").2 =
      .error (.api ⟨500, "\x7b\"error\":\"\"\x7d"⟩) :=
  claim10_empty_error_field_raw_body ⟨"http://cal"⟩
    (fun _ => .ok 500 "\x7b\"error\":\"\"\x7d") (fun _ => some "") "feed-1"
    500 "\x7b\"error\":\"\"\x7d" (fun _ => rfl) (by decide) rfl

end Pylon
